import Mathlib

/-!
Shallow embedding of `src/ol/webgl/Helper.js` (class `WebGLHelper`).

Conventions of the embedding:
* GPU handles (buffers, shaders, programs, textures) are natural numbers drawn
  from a monotone allocator `nextHandle`; the underlying context's create calls
  hand out fresh handles.
* The JavaScript objects used as caches (`bufferCache_`, `shaderCache_`,
  `programCache_`, `uniformLocations_`, `attribLocations_`) become association
  lists; `mapGet` is property read, consing is property write, `mapErase` is
  the `delete` operator.
* A field that the constructor declares but never assigns
  (`this.uniformLocations_;`) is `none` at type `Option (List _)`; reading a
  property of `undefined` throws, which the embedding reports as
  `Except.error JSError.typeError`.
* Every call into the underlying rendering context is recorded in an emitted
  trace of `GLCommand`s, so that claims about which GPU calls are (not) issued
  are statements about the trace.
* JavaScript numbers used as indices and sizes are `Int`; typed-array
  construction (`Uint32Array`, `Uint16Array`) reduces values modulo `2^32`
  resp. `2^16`; `Float32Array` data is kept symbolically under a 32-bit-float
  tag.
-/

namespace OLWebGL

/-- Association-list read, modelling `object[key]` (returns `undefined` as `none`). -/
def mapGet {κ ν : Type} [DecidableEq κ] (m : List (κ × ν)) (k : κ) : Option ν :=
  match m with
  | [] => none
  | (k', v) :: rest => if k = k' then some v else mapGet rest k

/-- Association-list delete, modelling `delete object[key]`. -/
def mapErase {κ ν : Type} [DecidableEq κ] (m : List (κ × ν)) (k : κ) : List (κ × ν) :=
  m.filter (fun e => decide (e.1 ≠ k))

/-- Buffer bind targets: the `ARRAY_BUFFER` / `ELEMENT_ARRAY_BUFFER` constants. -/
inductive BufferTarget where
  | arrayBuffer
  | elementArrayBuffer
  deriving Repr, DecidableEq

/-- Typed-array view handed to `gl.bufferData`, tagged with its element width. -/
inductive ArrayBufferView where
  | float32 (data : List Int)
  | uint32 (data : List Int)
  | uint16 (data : List Int)
  deriving Repr, DecidableEq

/-- Index element type passed to `gl.drawElements`. -/
inductive ElementType where
  | unsignedInt
  | unsignedShort
  deriving Repr, DecidableEq

/-- Draw primitive mode; `Helper.js` only ever uses `gl.TRIANGLES`. -/
inductive PrimitiveMode where
  | triangles
  deriving Repr, DecidableEq

/-- Calls issued to the underlying `WebGLRenderingContext`, as a trace. -/
inductive GLCommand where
  | createBuffer (handle : Nat)
  | bindBufferCmd (target : BufferTarget) (handle : Nat)
  | bufferData (target : BufferTarget) (data : ArrayBufferView) (usage : Nat)
  | deleteBufferCmd (handle : Nat)
  | createShader (handle : Nat)
  | shaderSource (handle : Nat)
  | compileShader (handle : Nat)
  | consoleError
  | createProgram (handle : Nat)
  | attachShader (program shader : Nat)
  | linkProgram (handle : Nat)
  | useProgramCmd (program : Option Nat)
  | getUniformLocationCmd (name : String)
  | getAttribLocationCmd (name : String)
  | drawElementsCmd (mode : PrimitiveMode) (count : Int) (elementType : ElementType)
      (offsetInBytes : Int)
  | createTexture (handle : Nat)
  | activeTexture (slot : Nat)
  | bindTexture (handle : Option Nat)
  | texParameteri
  | texImage2D
  | uniform1i (loc : Option Nat) (v : Nat)
  | uniform1f (loc : Option Nat) (x : Int)
  | uniform2f (loc : Option Nat) (x y : Int)
  | uniform3f (loc : Option Nat) (x y z : Int)
  | uniform4f (loc : Option Nat) (x y z w : Int)
  deriving Repr, DecidableEq

/-- Failure mode of the embedded JavaScript: reading a property of `undefined`. -/
inductive JSError where
  | typeError
  deriving Repr, DecidableEq

/-- Resolved value of a custom uniform after the `typeof value === 'function'`
step: an image-like value (`HTMLCanvasElement` / `ImageData`), a numeric array,
or a plain number. -/
inductive UniformValue where
  | image
  | vec (comps : List Int)
  | num (x : Int)
  deriving Repr, DecidableEq

/-- Entry of `this.uniforms_`: name, value, and the lazily created texture
handle for image-valued uniforms. -/
structure CustomUniform where
  name : String
  value : UniformValue
  texture : Option Nat
  deriving Repr, DecidableEq

/-- Mutable fields of a `WebGLHelper` instance. -/
structure HelperState where
  bufferCache : List (Nat × Nat)
  shaderCache : List (Nat × Nat)
  programCache : List ((Nat × Nat) × Nat)
  currentProgram : Option Nat
  uniformLocations : Option (List (String × Option Nat))
  attribLocations : Option (List (String × Int))
  uniforms : List CustomUniform
  hasOESElementIndexUint : Bool
  nextHandle : Nat
  contextLost : Bool
  deriving Repr, DecidableEq

/-- Constructor: all three caches start empty, `currentProgram_` is `null`,
the two location maps are declared but never assigned (hence `undefined`),
and the uniforms array is filled from the options without texture handles. -/
def initialState (hasUint : Bool) (uniformOptions : List (String × UniformValue)) :
    HelperState :=
  { bufferCache := []
    shaderCache := []
    programCache := []
    currentProgram := none
    uniformLocations := none
    attribLocations := none
    uniforms := uniformOptions.map (fun nv => ⟨nv.1, nv.2, none⟩)
    hasOESElementIndexUint := hasUint
    nextHandle := 0
    contextLost := false }

/-- Translation of `bindBuffer(target, buf)`: create-and-cache on miss, then
bind, convert the numeric array by target kind, and upload. `bufKey` is
`getUid(buf)`, `arr` is `buf.getArray()`, `usage` is `buf.getUsage()`. -/
def bindBuffer (target : BufferTarget) (bufKey : Nat) (arr : List Int) (usage : Nat)
    (s : HelperState) : HelperState × List GLCommand :=
  let hit := mapGet s.bufferCache bufKey
  let (handle, s1, createCmds) :=
    match hit with
    | some h => (h, s, ([] : List GLCommand))
    | none =>
        (s.nextHandle,
         { s with
            bufferCache := (bufKey, s.nextHandle) :: s.bufferCache
            nextHandle := s.nextHandle + 1 },
         [GLCommand.createBuffer s.nextHandle])
  let arrayBuffer : ArrayBufferView :=
    match target with
    | .arrayBuffer => .float32 arr
    | .elementArrayBuffer =>
        if s.hasOESElementIndexUint then .uint32 (arr.map (fun x => x % 4294967296))
        else .uint16 (arr.map (fun x => x % 65536))
  (s1, createCmds ++ [.bindBufferCmd target handle, .bufferData target arrayBuffer usage])

/-- Translation of `deleteBuffer(buf)`: looks the entry up, issues the GPU
delete only when the context is not lost (reading `.buffer` of an absent entry
throws), then deletes the cache key. -/
def deleteBuffer (bufKey : Nat) (s : HelperState) :
    Except JSError (HelperState × List GLCommand) :=
  let entry := mapGet s.bufferCache bufKey
  if s.contextLost then
    .ok ({ s with bufferCache := mapErase s.bufferCache bufKey }, [])
  else
    match entry with
    | none => .error .typeError
    | some h =>
        .ok ({ s with bufferCache := mapErase s.bufferCache bufKey },
             [.deleteBufferCmd h])

/-- Translation of `handleWebGLContextLost()`: clears the three caches and the
current program; issues no context calls at all. -/
def handleWebGLContextLost (s : HelperState) : HelperState × List GLCommand :=
  ({ s with
      bufferCache := []
      shaderCache := []
      programCache := []
      currentProgram := none },
   [])

/-- Translation of `handleWebGLContextRestored()`: an empty body. -/
def handleWebGLContextRestored (s : HelperState) : HelperState × List GLCommand :=
  (s, [])

/-- Translation of `useProgram(program)`: no-op returning `false` when the
program is already current; otherwise activates it and resets both location
maps to fresh empty objects. -/
def useProgram (program : Option Nat) (s : HelperState) :
    Bool × HelperState × List GLCommand :=
  if program = s.currentProgram then
    (false, s, [])
  else
    (true,
     { s with
        currentProgram := program
        uniformLocations := some []
        attribLocations := some [] },
     [.useProgramCmd program])

/-- Translation of `drawElements(start, end)`: element type and byte size both
derive from `hasOESElementIndexUint`; count is `end - start`, offset is
`start * elementSize`, primitive is always `TRIANGLES`. -/
def drawElements (s : HelperState) (start finish : Int) : GLCommand :=
  let elementType : ElementType :=
    if s.hasOESElementIndexUint then .unsignedInt else .unsignedShort
  let elementSize : Int := if s.hasOESElementIndexUint then 4 else 2
  let numItems := finish - start
  let offsetInBytes := start * elementSize
  .drawElementsCmd .triangles numItems elementType offsetInBytes

/-- Identity of a shader object: `getUid`, kind constant, and source text. -/
structure ShaderObject where
  uid : Nat
  shaderType : Nat
  source : String
  deriving Repr, DecidableEq

/-- Translation of `getShader(shaderObject)`: cache hit returns the stored
handle; miss creates, sources and compiles a shader, logs on failed
compilation, and caches the handle either way. `compileOk` stands for the
context's `COMPILE_STATUS` answer. -/
def getShader (compileOk : Bool) (shaderObject : ShaderObject) (s : HelperState) :
    Nat × HelperState × List GLCommand :=
  match mapGet s.shaderCache shaderObject.uid with
  | some h => (h, s, [])
  | none =>
      let shader := s.nextHandle
      (shader,
       { s with
          shaderCache := (shaderObject.uid, shader) :: s.shaderCache
          nextHandle := s.nextHandle + 1 },
       [GLCommand.createShader shader, .shaderSource shader, .compileShader shader]
         ++ (if compileOk then [] else [GLCommand.consoleError]))

/-- Translation of `getProgram(fragmentShaderObject, vertexShaderObject)`: the
cache key is the ordered pair of uids; on miss a program is created, the two
shaders are attached fragment first, and the program is linked and cached. -/
def getProgram (compileOk : Bool) (fragmentShaderObject vertexShaderObject : ShaderObject)
    (s : HelperState) : Nat × HelperState × List GLCommand :=
  let programKey := (fragmentShaderObject.uid, vertexShaderObject.uid)
  match mapGet s.programCache programKey with
  | some h => (h, s, [])
  | none =>
      let program := s.nextHandle
      let s1 := { s with nextHandle := s.nextHandle + 1 }
      let r1 := getShader compileOk fragmentShaderObject s1
      let r2 := getShader compileOk vertexShaderObject r1.2.1
      (program,
       { r2.2.1 with programCache := (programKey, program) :: r2.2.1.programCache },
       [GLCommand.createProgram program] ++ r1.2.2 ++ [.attachShader program r1.1]
         ++ r2.2.2 ++ [.attachShader program r2.1, .linkProgram program])

/-- Truthiness of `this.uniformLocations_[name]`: a `WebGLUniformLocation`
object is truthy, `null` and `undefined` are falsy. -/
def cachedTruthyLoc : Option (Option Nat) → Option Nat
  | some (some l) => some l
  | _ => none

/-- Translation of `getUniformLocation(name)`: throws when the map was never
created; performs the context lookup whenever the cached value is falsy,
stores the result, and returns the stored value. `env` is the context's
`getUniformLocation` for the current program (`none` = `null`). -/
def getUniformLocation (env : String → Option Nat) (name : String) (s : HelperState) :
    Except JSError (Option Nat × HelperState × List GLCommand) :=
  match s.uniformLocations with
  | none => .error .typeError
  | some m =>
      match cachedTruthyLoc (mapGet m name) with
      | some loc => .ok (some loc, s, [])
      | none =>
          let loc := env name
          .ok (loc, { s with uniformLocations := some ((name, loc) :: m) },
               [.getUniformLocationCmd name])

/-- Translation of `getAttributeLocation(name)`: same shape as the uniform
variant; an attribute location is a number, falsy exactly when it is `0`. -/
def getAttributeLocation (env : String → Int) (name : String) (s : HelperState) :
    Except JSError (Int × HelperState × List GLCommand) :=
  match s.attribLocations with
  | none => .error .typeError
  | some m =>
      match mapGet m name with
      | some v =>
          if v = 0 then
            let loc := env name
            .ok (loc, { s with attribLocations := some ((name, loc) :: m) },
                 [.getAttribLocationCmd name])
          else
            .ok (v, s, [])
      | none =>
          let loc := env name
          .ok (loc, { s with attribLocations := some ((name, loc) :: m) },
               [.getAttribLocationCmd name])

/-- Modelled from the spec: the 2D affine transform utilities of
`ol/transform` (imported by `Helper.js` but not part of the source under
verification). A transform `[a, b, c, d, e, f]` is the matrix
`[a c e; b d f; 0 0 1]`; entries are rationals standing for JavaScript
numbers. -/
structure Transform where
  a : ℚ
  b : ℚ
  c : ℚ
  d : ℚ
  e : ℚ
  f : ℚ
  deriving Repr, DecidableEq

/-- Modelled from the spec: transform composition applies the second
transform to the accumulated first one (matrix product `t1 * t2`). -/
def multiplyTransform (t1 t2 : Transform) : Transform :=
  ⟨t1.a * t2.a + t1.c * t2.b,
   t1.b * t2.a + t1.d * t2.b,
   t1.a * t2.c + t1.c * t2.d,
   t1.b * t2.c + t1.d * t2.d,
   t1.a * t2.e + t1.c * t2.f + t1.e,
   t1.b * t2.e + t1.d * t2.f + t1.f⟩

/-- Modelled from the spec: `reset` yields the identity transform. -/
def resetTransform : Transform := ⟨1, 0, 0, 1, 0, 0⟩

/-- Modelled from the spec: `scale(transform, x, y)` applies a scaling to the
accumulated transform. -/
def scaleTransform (t : Transform) (x y : ℚ) : Transform :=
  multiplyTransform t ⟨x, 0, 0, y, 0, 0⟩

/-- Modelled from the spec: `rotate(transform, angle)` applies a rotation to
the accumulated transform. The angle is represented by its cosine and sine,
since exact trigonometry is not available over the rationals; rotating by the
negated angle uses `(cosA, -sinA)`. -/
def rotateTransform (t : Transform) (cosA sinA : ℚ) : Transform :=
  multiplyTransform t ⟨cosA, sinA, -sinA, cosA, 0, 0⟩

/-- Modelled from the spec: `translate(transform, dx, dy)` applies a
translation to the accumulated transform. -/
def translateTransform (t : Transform) (dx dy : ℚ) : Transform :=
  multiplyTransform t ⟨1, 0, 0, 1, dx, dy⟩

/-- View data read from a frame state by `applyFrameState`: `size`,
`viewState.rotation` (as the angle plus its cosine/sine pair),
`viewState.resolution` and `viewState.center`. -/
structure FrameState where
  width : ℚ
  height : ℚ
  rotation : ℚ
  rotationCos : ℚ
  rotationSin : ℚ
  resolution : ℚ
  centerX : ℚ
  centerY : ℚ
  deriving Repr, DecidableEq

/-- Translation of the matrix part of `applyFrameState(frameState)`: the
projection matrix is reset, scaled by `2/(resolution*size)`, rotated by
`-rotation`, translated by `-center`; the offset-scale matrix is a pure
scale by `2/size`; the offset-rotation matrix is rotated by `-rotation`
only when the rotation is nonzero. Returns
(projection, offsetScale, offsetRotate). -/
def applyFrameState (fs : FrameState) : Transform × Transform × Transform :=
  let projectionMatrix := resetTransform
  let projectionMatrix := scaleTransform projectionMatrix
      (2 / (fs.resolution * fs.width)) (2 / (fs.resolution * fs.height))
  let projectionMatrix := rotateTransform projectionMatrix fs.rotationCos (-fs.rotationSin)
  let projectionMatrix := translateTransform projectionMatrix (-fs.centerX) (-fs.centerY)
  let offsetScaleMatrix := scaleTransform resetTransform (2 / fs.width) (2 / fs.height)
  let offsetRotateMatrix :=
    if fs.rotation ≠ 0 then rotateTransform resetTransform fs.rotationCos (-fs.rotationSin)
    else resetTransform
  (projectionMatrix, offsetScaleMatrix, offsetRotateMatrix)

/-- Translation of the body of the `forEach` in `applyUniforms()`, folded over
the uniforms list with the running texture slot. For an image value the cached
texture is reused when present and created once when absent; vectors dispatch
on length 2/3/4 and other lengths are skipped; numbers set a scalar float. -/
def applyUniformsAux (env : String → Option Nat) :
    List CustomUniform → Nat → HelperState →
    Except JSError (List CustomUniform × HelperState × List GLCommand)
  | [], _, s => .ok ([], s, [])
  | uniform :: rest, textureSlot, s =>
    match uniform.value with
    | .image =>
      let step :=
        match uniform.texture with
        | some _ => (uniform, s, ([] : List GLCommand))
        | none =>
            ({ uniform with texture := some s.nextHandle },
             { s with nextHandle := s.nextHandle + 1 },
             [GLCommand.createTexture s.nextHandle])
      match getUniformLocation env uniform.name step.2.1 with
      | .error e => .error e
      | .ok (loc, s2, locCmds) =>
        match applyUniformsAux env rest (textureSlot + 1) s2 with
        | .error e => .error e
        | .ok (restOut, s3, restCmds) =>
          .ok (step.1 :: restOut, s3,
               step.2.2
                 ++ [.activeTexture textureSlot, .bindTexture step.1.texture,
                     .texParameteri, .texParameteri, .texParameteri, .texImage2D]
                 ++ locCmds ++ [.uniform1i loc textureSlot] ++ restCmds)
    | .vec comps =>
      match comps with
      | [x, y] =>
        match getUniformLocation env uniform.name s with
        | .error e => .error e
        | .ok (loc, s1, locCmds) =>
          match applyUniformsAux env rest textureSlot s1 with
          | .error e => .error e
          | .ok (restOut, s2, restCmds) =>
            .ok (uniform :: restOut, s2, locCmds ++ [.uniform2f loc x y] ++ restCmds)
      | [x, y, z] =>
        match getUniformLocation env uniform.name s with
        | .error e => .error e
        | .ok (loc, s1, locCmds) =>
          match applyUniformsAux env rest textureSlot s1 with
          | .error e => .error e
          | .ok (restOut, s2, restCmds) =>
            .ok (uniform :: restOut, s2, locCmds ++ [.uniform3f loc x y z] ++ restCmds)
      | [x, y, z, w] =>
        match getUniformLocation env uniform.name s with
        | .error e => .error e
        | .ok (loc, s1, locCmds) =>
          match applyUniformsAux env rest textureSlot s1 with
          | .error e => .error e
          | .ok (restOut, s2, restCmds) =>
            .ok (uniform :: restOut, s2, locCmds ++ [.uniform4f loc x y z w] ++ restCmds)
      | _ =>
        match applyUniformsAux env rest textureSlot s with
        | .error e => .error e
        | .ok (restOut, s1, restCmds) => .ok (uniform :: restOut, s1, restCmds)
    | .num x =>
      match getUniformLocation env uniform.name s with
      | .error e => .error e
      | .ok (loc, s1, locCmds) =>
        match applyUniformsAux env rest textureSlot s1 with
        | .error e => .error e
        | .ok (restOut, s2, restCmds) =>
          .ok (uniform :: restOut, s2, locCmds ++ [.uniform1f loc x] ++ restCmds)

/-- Translation of `applyUniforms()`: processes `this.uniforms_` starting at
texture slot 0 and stores back the (possibly texture-augmented) uniforms. -/
def applyUniforms (env : String → Option Nat) (s : HelperState) :
    Except JSError (HelperState × List GLCommand) :=
  match applyUniformsAux env s.uniforms 0 s with
  | .error e => .error e
  | .ok (uniformsOut, s1, cmds) => .ok ({ s1 with uniforms := uniformsOut }, cmds)

/-- Downward loop of `prepareDraw`: visits indices `i, i-1, ..., 0`. -/
def initLoop {α : Type _} (passes : List α) : Nat → List α
  | 0 => []
  | i + 1 =>
    match passes.get? i with
    | some p => p :: initLoop passes i
    | none => initLoop passes i

/-- Translation of the pass-initialization loop in `prepareDraw(size,
pixelRatio)`: `for (let i = length - 1; i >= 0; i--) passes[i].init(...)`;
returns the passes in the order their `init` is invoked. -/
def prepareDrawInits {α : Type _} (passes : List α) : List α :=
  initLoop passes passes.length

/-- Translation of `finalizeDraw()`: `passes[i].apply(passes[i+1] || null)`
for `i = 0 .. length-1`; returns the `(pass, target)` pairs in call order,
`none` standing for the `null` presentation-surface target. -/
def finalizeDraw {α : Type _} (passes : List α) : List (α × Option α) :=
  (List.range passes.length).filterMap
    (fun i => (passes.get? i).map (fun p => (p, passes.get? (i + 1))))

/-- C2: for every buffer bind, the numeric array is converted before upload
according to the target kind: a vertex-array target uploads 32-bit floats, an
element-array target uploads 32-bit unsigned integers when
`hasOESElementIndexUint` is set and 16-bit unsigned integers otherwise; the
upload is the last context call of the bind. -/
theorem bindBuffer_upload_conversion (bufKey : Nat) (arr : List Int) (usage : Nat)
    (s : HelperState) :
    (bindBuffer .arrayBuffer bufKey arr usage s).2.getLast?
        = some (.bufferData .arrayBuffer (.float32 arr) usage) ∧
    (s.hasOESElementIndexUint = true →
      (bindBuffer .elementArrayBuffer bufKey arr usage s).2.getLast?
        = some (.bufferData .elementArrayBuffer
            (.uint32 (arr.map (fun x => x % 4294967296))) usage)) ∧
    (s.hasOESElementIndexUint = false →
      (bindBuffer .elementArrayBuffer bufKey arr usage s).2.getLast?
        = some (.bufferData .elementArrayBuffer
            (.uint16 (arr.map (fun x => x % 65536))) usage)) := by
  refine ⟨?_, fun hf => ?_, fun hf => ?_⟩ <;>
    cases h : mapGet s.bufferCache bufKey <;>
      simp [bindBuffer, h, *]

/-- Closed witness for `bindBuffer_upload_conversion` at a concrete state. -/
theorem bindBuffer_upload_conversion_witness :
    ((initialState true []).hasOESElementIndexUint = true ∧
      (bindBuffer .elementArrayBuffer 0 [0, 1, 70000] 35044 (initialState true [])).2.getLast?
        = some (.bufferData .elementArrayBuffer
            (.uint32 ([0, 1, 70000].map (fun x => x % 4294967296))) 35044)) ∧
    ((initialState false []).hasOESElementIndexUint = false ∧
      (bindBuffer .elementArrayBuffer 0 [0, 1, 70000] 35044 (initialState false [])).2.getLast?
        = some (.bufferData .elementArrayBuffer
            (.uint16 ([0, 1, 70000].map (fun x => x % 65536))) 35044)) :=
  ⟨⟨by decide,
    (bindBuffer_upload_conversion 0 [0, 1, 70000] 35044 (initialState true [])).2.1 (by decide)⟩,
   ⟨by decide,
    (bindBuffer_upload_conversion 0 [0, 1, 70000] 35044 (initialState false [])).2.2 (by decide)⟩⟩

/-- C3: every indexed draw uses the triangle primitive with count
`end - start` and byte offset `start * elementSize`, where element size and
element type come from the same capability flag as the upload conversion
(4 bytes / UNSIGNED_INT when set, 2 bytes / UNSIGNED_SHORT when unset); with
the flag unset, `drawElements 10 20` yields offset 20 and count 10. -/
theorem drawElements_indexed_draw (s : HelperState) (start finish : Int) :
    drawElements s start finish
      = .drawElementsCmd .triangles (finish - start)
          (if s.hasOESElementIndexUint then .unsignedInt else .unsignedShort)
          (start * (if s.hasOESElementIndexUint then (4 : Int) else 2)) ∧
    (s.hasOESElementIndexUint = false →
      drawElements s 10 20 = .drawElementsCmd .triangles 10 .unsignedShort 20) ∧
    (∀ bufKey arr usage,
      (bindBuffer .elementArrayBuffer bufKey arr usage s).2.getLast?
          = some (.bufferData .elementArrayBuffer
              (.uint32 (arr.map (fun x => x % 4294967296))) usage)
        ↔ (if s.hasOESElementIndexUint then (4 : Int) else 2) = 4) := by
  refine ⟨by simp [drawElements], fun hf => by simp [drawElements, hf], ?_⟩
  intro bufKey arr usage
  cases hu : s.hasOESElementIndexUint <;>
    cases h : mapGet s.bufferCache bufKey <;>
      simp [bindBuffer, h, hu]

/-- Closed witness for `drawElements_indexed_draw` with the flag unset. -/
theorem drawElements_indexed_draw_witness :
    (initialState false []).hasOESElementIndexUint = false ∧
    drawElements (initialState false []) 10 20
      = .drawElementsCmd .triangles 10 .unsignedShort 20 :=
  ⟨by decide, (drawElements_indexed_draw (initialState false []) 10 20).2.1 (by decide)⟩

/-- C4: `useProgram P` with `P` already active returns `false` and leaves the
whole state (hence both location maps) untouched; with a different program it
returns `true`, makes `P` active, and leaves both location maps empty. -/
theorem useProgram_change_discipline (program : Option Nat) (s : HelperState) :
    (program = s.currentProgram → useProgram program s = (false, s, [])) ∧
    (program ≠ s.currentProgram →
      (useProgram program s).1 = true ∧
      (useProgram program s).2.1.currentProgram = program ∧
      (useProgram program s).2.1.uniformLocations = some [] ∧
      (useProgram program s).2.1.attribLocations = some []) := by
  constructor
  · intro h; simp [useProgram, h]
  · intro h; simp [useProgram, h]

/-- Closed witness for `useProgram_change_discipline`: the same program is a
no-op returning `false`; a different one changes and clears the maps. -/
theorem useProgram_change_discipline_witness :
    ((some 5 : Option Nat)
        = ({ initialState false [] with currentProgram := some 5 } : HelperState).currentProgram ∧
      useProgram (some 5) { initialState false [] with currentProgram := some 5 }
        = (false, { initialState false [] with currentProgram := some 5 }, [])) ∧
    ((some 6 : Option Nat)
        ≠ ({ initialState false [] with currentProgram := some 5 } : HelperState).currentProgram ∧
      (useProgram (some 6) { initialState false [] with currentProgram := some 5 }).1 = true ∧
      (useProgram (some 6)
          { initialState false [] with currentProgram := some 5 }).2.1.currentProgram = some 6 ∧
      (useProgram (some 6)
          { initialState false [] with currentProgram := some 5 }).2.1.uniformLocations = some [] ∧
      (useProgram (some 6)
          { initialState false [] with currentProgram := some 5 }).2.1.attribLocations = some []) :=
  ⟨⟨by decide,
    (useProgram_change_discipline (some 5)
        { initialState false [] with currentProgram := some 5 }).1 (by decide)⟩,
   ⟨by decide,
    (useProgram_change_discipline (some 6)
        { initialState false [] with currentProgram := some 5 }).2 (by decide)⟩⟩

/-- C10: the constructor leaves both location maps uninitialized; resolving a
uniform or attribute location on the fresh instance throws instead of
returning an absent location; the maps become (empty) objects exactly when
`useProgram` performs a program change, and stay uninitialized on a
non-changing call. -/
theorem location_maps_created_on_program_change (hasUint : Bool)
    (uniformOptions : List (String × UniformValue)) (uenv : String → Option Nat)
    (aenv : String → Int) (name : String) (p : Nat) :
    (initialState hasUint uniformOptions).uniformLocations = none ∧
    (initialState hasUint uniformOptions).attribLocations = none ∧
    getUniformLocation uenv name (initialState hasUint uniformOptions)
      = .error .typeError ∧
    getAttributeLocation aenv name (initialState hasUint uniformOptions)
      = .error .typeError ∧
    (useProgram (some p) (initialState hasUint uniformOptions)).1 = true ∧
    (useProgram (some p) (initialState hasUint uniformOptions)).2.1.uniformLocations
      = some [] ∧
    (useProgram (some p) (initialState hasUint uniformOptions)).2.1.attribLocations
      = some [] ∧
    (useProgram none (initialState hasUint uniformOptions)).2.1.uniformLocations = none ∧
    (useProgram none (initialState hasUint uniformOptions)).2.1.attribLocations = none := by
  refine ⟨rfl, rfl, rfl, rfl, ?_, ?_, ?_, ?_, ?_⟩ <;>
    simp [useProgram, initialState]

/-- C6: the projection transform is the identity scaled by
`(2/(resolution*width), 2/(resolution*height))`, then rotated by the negated
view rotation, then translated by the negated center, in that order; its
closed form shows how the order mixes the factors, and at center `(0,0)`,
resolution `1`, rotation `0`, size `(100,100)` it is the pure scale by
`(0.02, 0.02)` with zero rotation and translation entries. -/
theorem applyFrameState_projection (fs : FrameState) :
    (applyFrameState fs).1
      = translateTransform (rotateTransform (scaleTransform resetTransform
          (2 / (fs.resolution * fs.width)) (2 / (fs.resolution * fs.height)))
          fs.rotationCos (-fs.rotationSin)) (-fs.centerX) (-fs.centerY) ∧
    (applyFrameState fs).1
      = ⟨2 / (fs.resolution * fs.width) * fs.rotationCos,
         -(2 / (fs.resolution * fs.height) * fs.rotationSin),
         2 / (fs.resolution * fs.width) * fs.rotationSin,
         2 / (fs.resolution * fs.height) * fs.rotationCos,
         -(2 / (fs.resolution * fs.width) * fs.rotationCos * fs.centerX)
           - 2 / (fs.resolution * fs.width) * fs.rotationSin * fs.centerY,
         2 / (fs.resolution * fs.height) * fs.rotationSin * fs.centerX
           - 2 / (fs.resolution * fs.height) * fs.rotationCos * fs.centerY⟩ ∧
    (applyFrameState ⟨100, 100, 0, 1, 0, 1, 0, 0⟩).1 = ⟨1/50, 0, 0, 1/50, 0, 0⟩ ∧
    (applyFrameState ⟨100, 100, 0, 1, 0, 1, 0, 0⟩).1
      = scaleTransform resetTransform (1/50) (1/50) := by
  refine ⟨rfl, ?_, ?_, ?_⟩ <;>
    simp only [applyFrameState, translateTransform, rotateTransform, scaleTransform,
      multiplyTransform, resetTransform, Transform.mk.injEq]
  · refine ⟨by ring, by ring, by ring, by ring, by ring, by ring⟩
  · norm_num
  · norm_num

/-- Loop characterization: the downward `init` loop visits a prefix backwards. -/
theorem initLoop_eq_take_reverse {α : Type} (passes : List α) (n : Nat) :
    initLoop passes n = (passes.take n).reverse := by
  induction n with
  | zero => rfl
  | succ n ih =>
    rw [initLoop]
    cases h : passes.get? n with
    | some p => rw [ih, List.take_succ, ← List.get?_eq_getElem?, h]; simp
    | none => rw [ih, List.take_succ, ← List.get?_eq_getElem?, h]; simp

/-- Pass initialization happens in reverse declaration order. -/
theorem prepareDrawInits_eq_reverse {α : Type} (passes : List α) :
    prepareDrawInits passes = passes.reverse := by
  rw [prepareDrawInits, initLoop_eq_take_reverse, List.take_length]

/-- Unfolding of the `finalizeDraw` loop one pass at a time. -/
theorem finalizeDraw_cons {α : Type} (p : α) (t : List α) :
    finalizeDraw (p :: t) = (p, t.get? 0) :: finalizeDraw t := by
  simp only [finalizeDraw, List.length_cons, List.range_succ_eq_map,
    List.filterMap_cons, List.filterMap_map, List.get?_cons_zero, List.get?_cons_succ]
  rfl

/-- Each pass is applied with the next pass as target, the last with `none`. -/
theorem finalizeDraw_eq_zip {α : Type} (passes : List α) :
    finalizeDraw passes = passes.zip ((passes.drop 1).map some ++ [none]) := by
  induction passes with
  | nil => rfl
  | cons p t ih =>
    rw [finalizeDraw_cons, ih]
    cases t with
    | nil => rfl
    | cons q r => rfl

/-- C7: per-frame initialization invokes `init` on the passes in reverse
declaration order, and `finalizeDraw` applies the passes in forward order,
pass `i` targeting pass `i+1` and the last pass targeting `none`; for the
pipeline `[A, B]`, inits run as `[B, A]` and the applies are
`(A, some B), (B, none)`. -/
theorem postProcessPasses_ordering {α : Type} (passes : List α) (A B : α) :
    prepareDrawInits passes = passes.reverse ∧
    finalizeDraw passes = passes.zip ((passes.drop 1).map some ++ [none]) ∧
    prepareDrawInits [A, B] = [B, A] ∧
    finalizeDraw [A, B] = [(A, some B), (B, none)] := by
  refine ⟨prepareDrawInits_eq_reverse passes, finalizeDraw_eq_zip passes, rfl, ?_⟩
  rw [finalizeDraw_cons, finalizeDraw_cons]
  rfl

/-- Erasing a key really removes it from the mapping. -/
theorem mapGet_mapErase_self {κ ν : Type} [DecidableEq κ] (m : List (κ × ν)) (k : κ) :
    mapGet (mapErase m k) k = none := by
  induction m with
  | nil => rfl
  | cons e rest ih =>
    rcases e with ⟨k', v⟩
    by_cases h : k' = k
    · simpa [mapErase, List.filter_cons, h] using ih
    · have h2 : ¬(k = k') := fun hh => h hh.symm
      simpa [mapErase, List.filter_cons, h, mapGet, h2] using ih

/-- C8 counterexample: with the context lost, `deleteBuffer` on a descriptor
with no cache entry succeeds silently instead of failing. -/
theorem deleteBuffer_missing_entry_silent_when_lost :
    mapGet ({ initialState false [] with contextLost := true } : HelperState).bufferCache 0
      = none ∧
    deleteBuffer 0 { initialState false [] with contextLost := true }
      = .ok ({ initialState false [] with contextLost := true }, []) := by
  exact ⟨rfl, rfl⟩

/-- C8 (amended): `deleteBuffer` on a cached descriptor removes the entry and
deletes the GPU handle, skipping the delete call when the context is lost;
on a descriptor with no entry it throws when the context is not lost, and is
a silent no-op when the context is lost. -/
theorem deleteBuffer_spec (bufKey : Nat) (s : HelperState) :
    (∀ h, mapGet s.bufferCache bufKey = some h → s.contextLost = false →
      deleteBuffer bufKey s
        = .ok ({ s with bufferCache := mapErase s.bufferCache bufKey },
               [.deleteBufferCmd h])) ∧
    (s.contextLost = true →
      deleteBuffer bufKey s
        = .ok ({ s with bufferCache := mapErase s.bufferCache bufKey }, [])) ∧
    (mapGet s.bufferCache bufKey = none → s.contextLost = false →
      deleteBuffer bufKey s = .error .typeError) ∧
    mapGet (mapErase s.bufferCache bufKey) bufKey = none := by
  refine ⟨?_, ?_, ?_, mapGet_mapErase_self _ _⟩
  · intro h hm hl; simp [deleteBuffer, hm, hl]
  · intro hl; simp [deleteBuffer, hl]
  · intro hm hl; simp [deleteBuffer, hm, hl]

/-- Closed witness for `deleteBuffer_spec`: a live delete of a cached entry,
a lost-context delete, and a live delete of a missing entry. -/
theorem deleteBuffer_spec_witness :
    deleteBuffer 0 { initialState false [] with bufferCache := [(0, 3)] }
      = .ok (initialState false [], [.deleteBufferCmd 3]) ∧
    deleteBuffer 0 { initialState false [] with bufferCache := [(0, 3)], contextLost := true }
      = .ok ({ initialState false [] with contextLost := true }, []) ∧
    deleteBuffer 1 (initialState false []) = .error .typeError :=
  ⟨((deleteBuffer_spec 0
        { initialState false [] with bufferCache := [(0, 3)] }).1 3 rfl rfl).trans rfl,
   ((deleteBuffer_spec 0
        { initialState false [] with
            bufferCache := [(0, 3)], contextLost := true }).2.1 rfl).trans rfl,
   (deleteBuffer_spec 1 (initialState false [])).2.2.1 rfl rfl⟩

/-- Looked-up values of an association list are among its stored values. -/
theorem mapGet_mem_snd {κ ν : Type} [DecidableEq κ] {m : List (κ × ν)} {k : κ} {v : ν}
    (h : mapGet m k = some v) : v ∈ m.map Prod.snd := by
  induction m with
  | nil => simp [mapGet] at h
  | cons e rest ih =>
    rcases e with ⟨k', v'⟩
    by_cases hk : k = k'
    · simp only [mapGet, if_pos hk, Option.some.injEq] at h
      simp [h]
    · simp only [mapGet, if_neg hk] at h
      simp [ih h]

/-- C1: handling a context loss clears the buffer, shader and program caches,
resets the active program to `none`, and issues no context (hence no delete)
calls; afterwards an acquire of any previously cached buffer, shader or
program descriptor creates a fresh entry whose handle differs from the stale
pre-loss handle. -/
theorem handleWebGLContextLost_invalidation (s : HelperState) (bufKey hOld : Nat)
    (hk : mapGet s.bufferCache bufKey = some hOld)
    (hinv : ∀ h ∈ s.bufferCache.map Prod.snd, h < s.nextHandle)
    (hinvS : ∀ h ∈ s.shaderCache.map Prod.snd, h < s.nextHandle)
    (hinvP : ∀ h ∈ s.programCache.map Prod.snd, h < s.nextHandle) :
    (handleWebGLContextLost s).2 = [] ∧
    (handleWebGLContextLost s).1.bufferCache = [] ∧
    (handleWebGLContextLost s).1.shaderCache = [] ∧
    (handleWebGLContextLost s).1.programCache = [] ∧
    (handleWebGLContextLost s).1.currentProgram = none ∧
    (∀ target arr usage,
      mapGet (bindBuffer target bufKey arr usage (handleWebGLContextLost s).1).1.bufferCache
          bufKey = some s.nextHandle ∧
      GLCommand.createBuffer s.nextHandle
        ∈ (bindBuffer target bufKey arr usage (handleWebGLContextLost s).1).2 ∧
      s.nextHandle ≠ hOld) ∧
    (∀ compileOk shaderObject hS, mapGet s.shaderCache shaderObject.uid = some hS →
      (getShader compileOk shaderObject (handleWebGLContextLost s).1).1 = s.nextHandle ∧
      (getShader compileOk shaderObject (handleWebGLContextLost s).1).1 ≠ hS) ∧
    (∀ compileOk fso vso hP, mapGet s.programCache (fso.uid, vso.uid) = some hP →
      (getProgram compileOk fso vso (handleWebGLContextLost s).1).1 = s.nextHandle ∧
      (getProgram compileOk fso vso (handleWebGLContextLost s).1).1 ≠ hP) := by
  refine ⟨rfl, rfl, rfl, rfl, rfl, ?_, ?_, ?_⟩
  · intro target arr usage
    refine ⟨?_, ?_, (hinv hOld (mapGet_mem_snd hk)).ne'⟩
    · simp [bindBuffer, handleWebGLContextLost, mapGet]
    · simp [bindBuffer, handleWebGLContextLost, mapGet]
  · intro compileOk shaderObject hS hkS
    exact ⟨rfl, by simpa using (hinvS hS (mapGet_mem_snd hkS)).ne'⟩
  · intro compileOk fso vso hP hkP
    exact ⟨rfl, by simpa using (hinvP hP (mapGet_mem_snd hkP)).ne'⟩

/-- Concrete pre-loss helper state: one cached buffer, shader and program. -/
def demoLossState : HelperState :=
  { initialState true [] with
      bufferCache := [(0, 7)]
      shaderCache := [(1, 8)]
      programCache := [((1, 2), 9)]
      currentProgram := some 9
      nextHandle := 10 }

/-- Closed witness for `handleWebGLContextLost_invalidation` on
`demoLossState`: the loss emits nothing, empties the caches, and the next
bind of the old descriptor allocates the fresh handle 10, not the stale 7. -/
theorem handleWebGLContextLost_invalidation_witness :
    (handleWebGLContextLost demoLossState).2 = [] ∧
    (handleWebGLContextLost demoLossState).1.bufferCache = [] ∧
    (handleWebGLContextLost demoLossState).1.currentProgram = none ∧
    mapGet (bindBuffer .arrayBuffer 0 [] 0
        (handleWebGLContextLost demoLossState).1).1.bufferCache 0
      = some demoLossState.nextHandle ∧
    demoLossState.nextHandle ≠ 7 := by
  obtain ⟨h1, h2, -, -, h5, h6, -, -⟩ :=
    handleWebGLContextLost_invalidation demoLossState 0 7 (by decide) (by decide)
      (by decide) (by decide)
  exact ⟨h1, h2, h5, (h6 .arrayBuffer [] 0).1, (h6 .arrayBuffer [] 0).2.2⟩

/-- Predicate picking the underlying context's uniform-location lookups out of
a command trace. -/
def isUniformLookup : GLCommand → Bool
  | .getUniformLocationCmd _ => true
  | _ => false

/-- Predicate picking the underlying context's attribute-location lookups. -/
def isAttribLookup : GLCommand → Bool
  | .getAttribLocationCmd _ => true
  | _ => false

/-- Experiment: resolve the same uniform name twice in a row (no program
change in between) and count the underlying context lookups performed in
total; `none` when a call throws. -/
def resolveTwiceLookups (env : String → Option Nat) (name : String) (s : HelperState) :
    Option Nat :=
  match getUniformLocation env name s with
  | .error _ => none
  | .ok (_, s1, c1) =>
    match getUniformLocation env name s1 with
    | .error _ => none
    | .ok (_, _, c2) => some (c1.countP isUniformLookup + c2.countP isUniformLookup)

/-- Experiment: resolve the same attribute name twice in a row and count the
underlying context lookups performed in total. -/
def resolveAttribTwiceLookups (env : String → Int) (name : String) (s : HelperState) :
    Option Nat :=
  match getAttributeLocation env name s with
  | .error _ => none
  | .ok (_, s1, c1) =>
    match getAttributeLocation env name s1 with
    | .error _ => none
    | .ok (_, _, c2) => some (c1.countP isAttribLookup + c2.countP isAttribLookup)

/-- C5 counterexample: with a fresh (empty) location map and a name whose
location resolves to `null`, two successive resolutions of that name within
one binding generation perform two underlying context lookups — the falsy
stored value does not prevent the repeat lookup, refuting "at most one
underlying context lookup in total". -/
theorem absent_location_lookup_not_memoized :
    resolveTwiceLookups (fun _ => none) "u"
        { initialState false [] with uniformLocations := some [] } = some 2 ∧
    ¬(2 ≤ 1) :=
  ⟨rfl, by decide⟩

/-- C5 (amended): within one binding generation, a name resolving to a truthy
location costs one underlying lookup across repeated resolutions; a name
resolving to a falsy/absent location (a `null` uniform location, or attribute
location `0`) is stored but re-triggers the underlying lookup on every call,
costing one lookup per resolution. -/
theorem location_memoization_truthy_only (uenv : String → Option Nat)
    (aenv : String → Int) (name : String) (s : HelperState)
    (m : List (String × Option Nat)) (ma : List (String × Int))
    (hm : s.uniformLocations = some m) (hf : mapGet m name = none)
    (hma : s.attribLocations = some ma) (hfa : mapGet ma name = none) :
    (∀ l, uenv name = some l → resolveTwiceLookups uenv name s = some 1) ∧
    (uenv name = none → resolveTwiceLookups uenv name s = some 2) ∧
    (aenv name ≠ 0 → resolveAttribTwiceLookups aenv name s = some 1) ∧
    (aenv name = 0 → resolveAttribTwiceLookups aenv name s = some 2) := by
  refine ⟨?_, ?_, ?_, ?_⟩
  · intro l hl
    simp [resolveTwiceLookups, getUniformLocation, hm, hf, cachedTruthyLoc, hl, mapGet,
      isUniformLookup, List.countP_cons, List.countP_nil]
  · intro hl
    simp [resolveTwiceLookups, getUniformLocation, hm, hf, cachedTruthyLoc, hl, mapGet,
      isUniformLookup, List.countP_cons, List.countP_nil]
  · intro hl
    simp [resolveAttribTwiceLookups, getAttributeLocation, hma, hfa, hl, mapGet,
      isAttribLookup, List.countP_cons, List.countP_nil]
  · intro hl
    simp [resolveAttribTwiceLookups, getAttributeLocation, hma, hfa, hl, mapGet,
      isAttribLookup, List.countP_cons, List.countP_nil]

/-- State with freshly initialized (empty) location maps, as left by a
program-changing `useProgram`. -/
def freshMapsState : HelperState :=
  { initialState false [] with uniformLocations := some [], attribLocations := some [] }

/-- Closed witness for `location_memoization_truthy_only` on `freshMapsState`:
a resolvable uniform costs one lookup over two calls, an unresolvable one two;
a nonzero attribute location costs one, location zero costs two. -/
theorem location_memoization_truthy_only_witness :
    resolveTwiceLookups (fun _ => some 3) "u" freshMapsState = some 1 ∧
    resolveTwiceLookups (fun _ => none) "u" freshMapsState = some 2 ∧
    resolveAttribTwiceLookups (fun _ => -1) "u" freshMapsState = some 1 ∧
    resolveAttribTwiceLookups (fun _ => 0) "u" freshMapsState = some 2 :=
  ⟨(location_memoization_truthy_only (fun _ => some 3) (fun _ => -1) "u" freshMapsState
      [] [] rfl rfl rfl rfl).1 3 rfl,
   (location_memoization_truthy_only (fun _ => none) (fun _ => -1) "u" freshMapsState
      [] [] rfl rfl rfl rfl).2.1 rfl,
   (location_memoization_truthy_only (fun _ => some 3) (fun _ => -1) "u" freshMapsState
      [] [] rfl rfl rfl rfl).2.2.1 (by decide),
   (location_memoization_truthy_only (fun _ => some 3) (fun _ => 0) "u" freshMapsState
      [] [] rfl rfl rfl rfl).2.2.2 rfl⟩

/-- Shape of a uniform-location resolution on an initialized map: it
succeeds, only the uniform-location map changes, and the trace is at most the
single underlying lookup command. -/
theorem getUniformLocation_shape (env : String → Option Nat) (name : String)
    (s : HelperState) (m : List (String × Option Nat))
    (hm : s.uniformLocations = some m) :
    ∃ loc m' cmds, getUniformLocation env name s
        = .ok (loc, { s with uniformLocations := some m' }, cmds) ∧
      (cmds = [] ∨ cmds = [GLCommand.getUniformLocationCmd name]) := by
  cases h : cachedTruthyLoc (mapGet m name) with
  | some loc =>
      refine ⟨some loc, m, [], ?_, Or.inl rfl⟩
      simp only [getUniformLocation, hm, h]
      rw [← hm]
  | none =>
      refine ⟨env name, (name, env name) :: m, [.getUniformLocationCmd name], ?_, Or.inr rfl⟩
      simp only [getUniformLocation, hm, h]

/-- Processing a uniforms list whose image entries already carry a texture
handle allocates no texture and preserves every cached texture handle. -/
theorem applyUniformsAux_reuses_textures (env : String → Option Nat)
    (us : List CustomUniform) :
    ∀ (slot : Nat) (s : HelperState) (m : List (String × Option Nat)),
      s.uniformLocations = some m →
      (∀ u ∈ us, u.value = .image → u.texture.isSome) →
      ∃ out s' cmds, applyUniformsAux env us slot s = .ok (out, s', cmds) ∧
        out.map CustomUniform.texture = us.map CustomUniform.texture ∧
        (∃ m', s'.uniformLocations = some m') ∧
        ∀ t, GLCommand.createTexture t ∉ cmds := by
  induction us with
  | nil =>
      intro slot s m hm _
      exact ⟨[], s, [], rfl, rfl, ⟨m, hm⟩, by simp⟩
  | cons u rest ih =>
      intro slot s m hm hu
      have hurest : ∀ v ∈ rest, v.value = .image → v.texture.isSome :=
        fun v hv' himg => hu v (List.mem_cons_of_mem _ hv') himg
      cases hv : u.value with
      | image =>
          obtain ⟨t0, ht⟩ :=
            Option.isSome_iff_exists.mp (hu u (List.mem_cons_self u rest) hv)
          obtain ⟨loc, m1, cmds1, hloc, hcmds1⟩ :=
            getUniformLocation_shape env u.name s m hm
          obtain ⟨out, s2, cmds2, hrec, hmap, hsome, hnc⟩ :=
            ih (slot + 1) { s with uniformLocations := some m1 } m1 rfl hurest
          refine ⟨u :: out, s2,
            [GLCommand.activeTexture slot, .bindTexture (some t0), .texParameteri,
              .texParameteri, .texParameteri, .texImage2D]
              ++ cmds1 ++ [.uniform1i loc slot] ++ cmds2,
            ?_, by simp [hmap], hsome, ?_⟩
          · simp only [applyUniformsAux, hv, ht, hloc, hrec, List.nil_append]
          · intro t
            rcases hcmds1 with rfl | rfl <;> simp [hnc t]
      | vec comps =>
          obtain ⟨loc, m1, cmds1, hloc, hcmds1⟩ :=
            getUniformLocation_shape env u.name s m hm
          obtain ⟨out, s2, cmds2, hrec, hmap, hsome, hnc⟩ :=
            ih slot { s with uniformLocations := some m1 } m1 rfl hurest
          obtain ⟨out0, s0, cmds0, hrec0, hmap0, hsome0, hnc0⟩ :=
            ih slot s m hm hurest
          rcases comps with _ | ⟨x, _ | ⟨y, _ | ⟨z, _ | ⟨w, _ | _⟩⟩⟩⟩
          · refine ⟨u :: out0, s0, cmds0, ?_, by simp [hmap0], hsome0, fun t => hnc0 t⟩
            simp only [applyUniformsAux, hv, hrec0]
          · refine ⟨u :: out0, s0, cmds0, ?_, by simp [hmap0], hsome0, fun t => hnc0 t⟩
            simp only [applyUniformsAux, hv, hrec0]
          · refine ⟨u :: out, s2, cmds1 ++ [.uniform2f loc x y] ++ cmds2,
              ?_, by simp [hmap], hsome, ?_⟩
            · simp only [applyUniformsAux, hv, hloc, hrec]
            · intro t
              rcases hcmds1 with rfl | rfl <;> simp [hnc t]
          · refine ⟨u :: out, s2, cmds1 ++ [.uniform3f loc x y z] ++ cmds2,
              ?_, by simp [hmap], hsome, ?_⟩
            · simp only [applyUniformsAux, hv, hloc, hrec]
            · intro t
              rcases hcmds1 with rfl | rfl <;> simp [hnc t]
          · refine ⟨u :: out, s2, cmds1 ++ [.uniform4f loc x y z w] ++ cmds2,
              ?_, by simp [hmap], hsome, ?_⟩
            · simp only [applyUniformsAux, hv, hloc, hrec]
            · intro t
              rcases hcmds1 with rfl | rfl <;> simp [hnc t]
          · refine ⟨u :: out0, s0, cmds0, ?_, by simp [hmap0], hsome0, fun t => hnc0 t⟩
            simp only [applyUniformsAux, hv, hrec0]
      | num x =>
          obtain ⟨loc, m1, cmds1, hloc, hcmds1⟩ :=
            getUniformLocation_shape env u.name s m hm
          obtain ⟨out, s2, cmds2, hrec, hmap, hsome, hnc⟩ :=
            ih slot { s with uniformLocations := some m1 } m1 rfl hurest
          refine ⟨u :: out, s2, cmds1 ++ [.uniform1f loc x] ++ cmds2,
            ?_, by simp [hmap], hsome, ?_⟩
          · simp only [applyUniformsAux, hv, hloc, hrec]
          · intro t
            rcases hcmds1 with rfl | rfl <;> simp [hnc t]

/-- C9: the loss handler changes only the three caches and the active
program: location maps, uniforms (with their cached texture handles),
capability flag, handle allocator and lost flag are all untouched; and the
first uniform application after a restore succeeds, reuses every pre-loss
texture handle, and issues no texture allocation. -/
theorem contextLost_leaves_other_fields (s : HelperState)
    (m : List (String × Option Nat)) (hm : s.uniformLocations = some m)
    (hu : ∀ u ∈ s.uniforms, u.value = .image → u.texture.isSome) :
    (handleWebGLContextLost s).1.uniformLocations = s.uniformLocations ∧
    (handleWebGLContextLost s).1.attribLocations = s.attribLocations ∧
    (handleWebGLContextLost s).1.uniforms = s.uniforms ∧
    (handleWebGLContextLost s).1.hasOESElementIndexUint = s.hasOESElementIndexUint ∧
    (handleWebGLContextLost s).1.nextHandle = s.nextHandle ∧
    (handleWebGLContextLost s).1.contextLost = s.contextLost ∧
    ∀ env, ∃ s' cmds,
      applyUniforms env (handleWebGLContextRestored (handleWebGLContextLost s).1).1
        = .ok (s', cmds) ∧
      s'.uniforms.map CustomUniform.texture = s.uniforms.map CustomUniform.texture ∧
      ∀ t, GLCommand.createTexture t ∉ cmds := by
  refine ⟨rfl, rfl, rfl, rfl, rfl, rfl, ?_⟩
  intro env
  obtain ⟨out, s', cmds, hrec, hmap, -, hnc⟩ :=
    applyUniformsAux_reuses_textures env (handleWebGLContextLost s).1.uniforms 0
      (handleWebGLContextLost s).1 m hm hu
  refine ⟨{ s' with uniforms := out }, cmds, ?_, hmap, hnc⟩
  simp only [applyUniforms, handleWebGLContextRestored, hrec]

/-- Concrete pre-loss helper state with an image uniform that already owns
texture handle 5 and a scalar uniform. -/
def preLossState : HelperState :=
  { initialState false [] with
      bufferCache := [(0, 1)]
      currentProgram := some 2
      uniformLocations := some []
      attribLocations := some []
      uniforms := [⟨"u_img", .image, some 5⟩, ⟨"u_num", .num 2, none⟩]
      nextHandle := 8 }

/-- Closed witness for `contextLost_leaves_other_fields` on `preLossState`. -/
theorem contextLost_leaves_other_fields_witness :
    (handleWebGLContextLost preLossState).1.uniforms = preLossState.uniforms ∧
    ∃ s' cmds,
      applyUniforms (fun _ => some 1)
          (handleWebGLContextRestored (handleWebGLContextLost preLossState).1).1
        = .ok (s', cmds) ∧
      s'.uniforms.map CustomUniform.texture
        = preLossState.uniforms.map CustomUniform.texture ∧
      ∀ t, GLCommand.createTexture t ∉ cmds := by
  obtain ⟨-, -, h3, -, -, -, h7⟩ :=
    contextLost_leaves_other_fields preLossState [] rfl (by decide)
  exact ⟨h3, h7 (fun _ => some 1)⟩

end OLWebGL
